import Mathlib

/-!
Verification of the steam_bot announcement pipeline.

The definitions below are a shallow embedding of the TypeScript sources:
`SteamBot.ts` (discovery, filtering, ordering, classification, rendering and
dispatch), the `DB` class (the sqlite ledger) and the `Config` loader.
JavaScript runtime behaviour is made explicit:

* fields that the Steam API may omit at runtime are `Option`s, and an
  unguarded member access on an absent value is the `JsError.typeError`
  outcome (the thrown `TypeError`);
* `new Date(s).getTime()` is abstracted by a parse oracle
  `pd : String → Option Int`, where `none` stands for an invalid date whose
  time is `NaN`; every JavaScript comparison `NaN <= x` is `false`, which is
  how the `none` branches below are written;
* IEEE-754 double arithmetic used by `getPrice` is emulated exactly by
  `toDouble`, which rounds an exact rational to 53 significant bits
  (round to nearest, ties to even), the format of a JavaScript number in the
  normal range;
* outcomes of external sends and of sqlite calls are oracle arguments of
  type `Except`, an `Except.error` being a rejected promise.

Structures keep the field names of the `IGameMeta` interface; interface
fields that none of the verified functions read are omitted from the
embedding.
-/

/-- Error raised by the JavaScript runtime for a member access on
`undefined`. -/
inductive JsError where
  | typeError
deriving DecidableEq, Repr

deriving instance DecidableEq for Except

/-- Entry of `categories` and `genres`: `IGameMetaEntry` in the source. -/
structure IGameMetaEntry where
  id : Int
  description : String
deriving DecidableEq, Repr

/-- Commercial terms: `IGameMetaPriceOverview` in the source (the fields the
verified code reads). -/
structure IGameMetaPriceOverview where
  currency : String
  final : Int
  discount_percent : Int
deriving DecidableEq, Repr

/-- Screenshot record: `IGameMetaScreenshot` in the source. -/
structure IGameMetaScreenshot where
  path_full : String
deriving DecidableEq, Repr

/-- Movie record, keeping only the `mp4[480]` source the code reads. -/
structure IGameMetaMovie where
  mp4_480 : String
deriving DecidableEq, Repr

/-- Release information: `IGameMetaReleaseDate` in the source. -/
structure IGameMetaReleaseDate where
  coming_soon : Bool
  date : String
deriving DecidableEq, Repr

/-- Enriched item description: `IGameMeta` in the source. The interface
declares every field as present, but the live API omits several of them, so
each field that some verified function dereferences without a guard is an
`Option` here; `none` is an absent field. -/
structure IGameMeta where
  type : Option String
  name : String
  steam_appid : Nat
  is_free : Bool
  price_overview : Option IGameMetaPriceOverview
  categories : Option (List IGameMetaEntry)
  screenshots : Option (List IGameMetaScreenshot)
  movies : Option (List IGameMetaMovie)
  release_date : IGameMetaReleaseDate
deriving DecidableEq, Repr

/-- Category derived per item; the channel choice in `postGames` lines
75 to 89 of `SteamBot.ts`. -/
inductive Category where
  | demo
  | coop
  | multi
  | solo
deriving DecidableEq, Repr

/-- Lower-casing as `String.prototype.toLowerCase` acts on the ASCII type
tags the code compares. -/
def jsToLowerCase (s : String) : String :=
  String.mk (s.data.map Char.toLower)

/-- Category codes of the fixed Coop set in `isCoop`. -/
def coopIds : List Int := [9, 38]

/-- Category codes of the fixed Multiplayer set in `isMulti`. -/
def multiIds : List Int := [1, 36, 49]

/-- Embedding of `SteamBot.isDemo`: `meta.type.toLowerCase() == 'demo'`.
An absent `type` makes `toLowerCase` a member access on `undefined`. -/
def isDemo (meta : IGameMeta) : Except JsError Bool :=
  match meta.type with
  | none => .error .typeError
  | some t => .ok (jsToLowerCase t == "demo")

/-- Embedding of `SteamBot.isCoop`: the filter of `meta.categories` against
`coopIds` has positive length. An absent `categories` makes `.filter` a
member access on `undefined`. -/
def isCoop (meta : IGameMeta) : Except JsError Bool :=
  match meta.categories with
  | none => .error .typeError
  | some cats => .ok (decide (0 < (cats.filter fun c => coopIds.contains c.id).length))

/-- Embedding of `SteamBot.isMulti`, the same shape as `isCoop` with
`multiIds`. -/
def isMulti (meta : IGameMeta) : Except JsError Bool :=
  match meta.categories with
  | none => .error .typeError
  | some cats => .ok (decide (0 < (cats.filter fun c => multiIds.contains c.id).length))

/-- Classification as `postGames` performs it (`SteamBot.ts` lines 75 to 85):
all three predicates are evaluated first, then the precedence
Demo, Coop, Multiplayer, Solo picks the category. An error from any of the
three predicates is the thrown `TypeError` of that line. -/
def classify (meta : IGameMeta) : Except JsError Category :=
  match isDemo meta with
  | .error e => .error e
  | .ok d =>
    match isCoop meta with
    | .error e => .error e
    | .ok c =>
      match isMulti meta with
      | .error e => .error e
      | .ok m => .ok (if d then .demo else if c then .coop else if m then .multi else .solo)

/-- Item whose type tag is "demo" and whose category codes include the Coop
code 9: the particular input of C2. -/
def demoWithCoopCode : IGameMeta :=
  { type := some "demo"
    name := "Demo With Coop"
    steam_appid := 42
    is_free := true
    price_overview := none
    categories := some [{ id := 9, description := "Co-op" }]
    screenshots := none
    movies := none
    release_date := { coming_soon := false, date := "1 Jan, 2024" } }

/-- Item with a present type tag but an absent category list, as the live
API serves for some apps. -/
def metaWithoutCategories : IGameMeta :=
  { type := some "demo"
    name := "No Categories"
    steam_appid := 77
    is_free := false
    price_overview := none
    categories := none
    screenshots := none
    movies := none
    release_date := { coming_soon := false, date := "1 Jan, 2024" } }

/-- Release filter of `fetchFilterAndSortGameMetas`: keep a meta when
`coming_soon` is false and the parsed release time is at or before `now`
(`Date.now()`). The oracle `pd` is `new Date(s).getTime()`, `none` being the
`NaN` of an invalid date; the JavaScript comparison `NaN <= now` is false,
so the `none` branch is `false`. -/
def filterReleased (pd : String → Option Int) (now : Int) (meta : IGameMeta) : Bool :=
  (!meta.release_date.coming_soon) &&
    (match pd meta.release_date.date with
     | some t => decide (t ≤ now)
     | none => false)

/-- Code-point comparison of character lists, the order under which
`localeCompare` is modelled for the ASCII names at issue. -/
def charListCmp : List Char → List Char → Ordering
  | [], [] => .eq
  | [], _ :: _ => .lt
  | _ :: _, [] => .gt
  | a :: as, b :: bs =>
    if a.toNat < b.toNat then .lt
    else if b.toNat < a.toNat then .gt
    else charListCmp as bs

/-- Sign-valued string comparison: the model of
`String.prototype.localeCompare` (negative, zero or positive as the first
string sorts before, with or after the second). -/
def localeCompare (a b : String) : Int :=
  match charListCmp a.data b.data with
  | .lt => -1
  | .eq => 0
  | .gt => 1

/-- Comparator `compareReleaseDatesOrNames` of
`fetchFilterAndSortGameMetas`: the time difference when it is nonzero,
otherwise `b.name.localeCompare(a.name)`. A `none` date makes the time
difference `NaN`, which the `!== 0` test passes, so the comparator value is
`NaN`: the `none` result. -/
def compareReleaseDatesOrNames (pd : String → Option Int) (a b : IGameMeta) : Option Int :=
  match pd a.release_date.date, pd b.release_date.date with
  | some ta, some tb => some (if ta - tb ≠ 0 then ta - tb else localeCompare b.name a.name)
  | _, _ => none

/-- Keep-before relation of the sort: a JavaScript sort places `a` no later
than `b` when the comparator is nonpositive. A `NaN` comparator leaves the
relative order unspecified; `true` is the choice here, and the ordering
theorem only concerns lists whose dates all parse, where that branch never
decides anything. -/
def jsSortLE (pd : String → Option Int) (a b : IGameMeta) : Bool :=
  match compareReleaseDatesOrNames pd a b with
  | some v => decide (v ≤ 0)
  | none => true

/-- Insertion step of the sort model. -/
def insertCmp (le : IGameMeta → IGameMeta → Bool) (x : IGameMeta) :
    List IGameMeta → List IGameMeta
  | [] => [x]
  | y :: ys => if le x y then x :: y :: ys else y :: insertCmp le x ys

/-- Comparison sort used to model `Array.prototype.sort` with a consistent
comparator: any correct sort yields a list ordered by the comparator. -/
def sortCmp (le : IGameMeta → IGameMeta → Bool) : List IGameMeta → List IGameMeta
  | [] => []
  | x :: xs => insertCmp le x (sortCmp le xs)

/-- Sort of `fetchFilterAndSortGameMetas`:
`metas.sort(compareReleaseDatesOrNames)`. -/
def sortMetas (pd : String → Option Int) (ms : List IGameMeta) : List IGameMeta :=
  sortCmp (jsSortLE pd) ms

/-- Announcement order the specification states: ascending release time,
ties broken by descending name. -/
def announceLE (pd : String → Option Int) (a b : IGameMeta) : Prop :=
  ∃ ta tb, pd a.release_date.date = some ta ∧ pd b.release_date.date = some tb ∧
    (ta < tb ∨ (ta = tb ∧ localeCompare b.name a.name ≤ 0))

/-- Parse oracle for the concrete ordering example: both items carry the
date 2024-01-01, whose epoch time is 1704067200000. -/
def pdExample (s : String) : Option Int :=
  if s = "2024-01-01" then some 1704067200000 else none

/-- Released item named Alpha dated 2024-01-01. -/
def metaAlpha : IGameMeta :=
  { type := some "game"
    name := "Alpha"
    steam_appid := 1
    is_free := false
    price_overview := none
    categories := some []
    screenshots := none
    movies := none
    release_date := { coming_soon := false, date := "2024-01-01" } }

/-- Released item named Zeta dated 2024-01-01. -/
def metaZeta : IGameMeta :=
  { type := some "game"
    name := "Zeta"
    steam_appid := 2
    is_free := false
    price_overview := none
    categories := some []
    screenshots := none
    movies := none
    release_date := { coming_soon := false, date := "2024-01-01" } }

/-- Result object of a webhook send: `id` is the message identity the code
tests with `if (response.id)`; `none` is an absent field. -/
structure SendResponse where
  id : Option String
deriving DecidableEq, Repr

/-- Outcomes of the up to three sends of one `postGame` call: the primary
message, the screenshots follow-up and the trailers follow-up. An
`Except.error` is a rejected `webhook.send` promise. -/
structure SendOutcomes where
  primary : Except Unit SendResponse
  screenshotsMsg : Except Unit Unit
  trailersMsg : Except Unit Unit
deriving DecidableEq, Repr

/-- Truthiness of `response.id`: `undefined` is falsy and a string is falsy
exactly when empty. -/
def jsTruthyId : Option String → Bool
  | none => false
  | some s => !(s == "")

/-- Inline-mode screenshot link:
`meta.screenshots ? meta.screenshots[0].path_full : undefined`. A present
empty array is truthy in JavaScript, so the code indexes element 0 of the
empty list, gets `undefined` and throws on `.path_full`. -/
def inlineScreenshotUrl (meta : IGameMeta) : Except JsError (Option String) :=
  match meta.screenshots with
  | none => .ok none
  | some [] => .error .typeError
  | some (s :: _) => .ok (some s.path_full)

/-- Inline-mode trailer link: `meta.movies ? meta.movies[0]?.mp4[480] :
undefined`; the optional chain makes a present empty list safe. -/
def inlineTrailerUrl (meta : IGameMeta) : Option String :=
  match meta.movies with
  | none => none
  | some [] => none
  | some (m :: _) => some m.mp4_480

/-- Thread-mode attachment list: the first ten screenshot urls
(`screenshotUrls.slice(0, 10)`). -/
def threadFiles (meta : IGameMeta) : List String :=
  (match meta.screenshots with
   | none => []
   | some ss => ss.map (fun s : IGameMetaScreenshot => s.path_full)).take 10

/-- Thread-mode trailer line:
`trailerUrls.map((url, index) => ...).join(', ')`. -/
def threadTrailerLinks (meta : IGameMeta) : String :=
  String.intercalate ", "
    ((match meta.movies with
      | none => []
      | some ms => ms.map (fun m : IGameMetaMovie => m.mp4_480)).mapIdx
      (fun i url => "[" ++ toString (i + 1) ++ "](" ++ url ++ ")"))

/-- Send phase of `postGame`, the try block of `SteamBot.ts` lines 238 to
259: the primary send; when its response carries a truthy id, the
screenshots message when there are files and then the trailers message when
the links line is nonempty. Any rejection inside the block lands in the
catch, and the function returns false. -/
def postGameSend (sends : SendOutcomes) (hasFiles hasTrailers : Bool) : Bool :=
  match sends.primary with
  | .error _ => false
  | .ok resp =>
    if jsTruthyId resp.id then
      if hasFiles then
        match sends.screenshotsMsg with
        | .error _ => false
        | .ok _ =>
          if hasTrailers then
            match sends.trailersMsg with
            | .error _ => false
            | .ok _ => true
          else true
      else
        if hasTrailers then
          match sends.trailersMsg with
          | .error _ => false
          | .ok _ => true
        else true
    else true

/-- Embedding of `postGame` (`SteamBot.ts` lines 154 to 260), keeping what
decides its outcome: the media section, which in inline mode reads
`meta.screenshots[0]` without a guard and can throw before the try block is
entered, and the send phase. `postThreads` is `config.postThreads`; in
inline mode `files` stays empty and `trailerLinks` stays the empty string,
so no follow-up send is attempted there. -/
def postGame (postThreads : Bool) (sends : SendOutcomes) (meta : IGameMeta) :
    Except JsError Bool :=
  if postThreads then
    .ok (postGameSend sends (!(threadFiles meta).isEmpty)
      (!(threadTrailerLinks meta == "")))
  else
    match inlineScreenshotUrl meta with
    | .error e => .error e
    | .ok _ => .ok (postGameSend sends false false)

/-- Storage-layer failure of the sqlite driver: a rejected promise from
`open`, `exec`, `prepare` or `run`. -/
inductive DbError where
  | ioError
deriving DecidableEq, Repr

/-- Error that escapes one iteration of the `postGames` loop. -/
inductive PassError where
  | js (e : JsError)
  | db (e : DbError)
deriving DecidableEq, Repr

/-- Loop of `postGames` (`SteamBot.ts` lines 69 to 95). Per item:
classification first (its `TypeError` escapes the loop), then the
`postGame` outcome from the oracle `post`, then, exactly when `wasPosted`
is true, the `registerGameAsPosted` call from the oracle `reg`, whose
boolean result the caller ignores but whose rejection escapes the loop.
Returns the ids attempted and the ids registered as posted. -/
def postGames (post : IGameMeta → Except JsError Bool)
    (reg : Nat → Except DbError Bool) :
    List IGameMeta → Except PassError (List Nat × List Nat)
  | [] => .ok ([], [])
  | m :: rest =>
    match classify m with
    | .error e => .error (.js e)
    | .ok _ =>
      match post m with
      | .error e => .error (.js e)
      | .ok wasPosted =>
        if wasPosted then
          match reg m.steam_appid with
          | .error e => .error (.db e)
          | .ok _ =>
            match postGames post reg rest with
            | .error e => .error e
            | .ok (att, recd) => .ok (m.steam_appid :: att, m.steam_appid :: recd)
        else
          match postGames post reg rest with
          | .error e => .error e
          | .ok (att, recd) => .ok (m.steam_appid :: att, recd)

/-- Result object of a sqlite `run`: `lastID` is the generated row
identity. -/
structure RunResult where
  lastID : Option Int
deriving DecidableEq, Repr

/-- Truthiness of the numeric `result.lastID`: `undefined` is falsy and a
number is falsy exactly when zero. -/
def jsTruthyNum : Option Int → Bool
  | none => false
  | some n => !(n == 0)

/-- Embedding of `DB.registerGameAsPosted`: open the database, ensure the
table, prepare and run the INSERT, and return true exactly when
`result.lastID` is truthy. The method has no try/catch, so a storage error
from any of those awaited steps propagates to the caller; `openOutcome` is
the `getDb` step and `runOutcome` the table/insert steps. -/
def registerGameAsPosted (openOutcome : Except DbError Unit)
    (runOutcome : Except DbError RunResult) : Except DbError Bool :=
  match openOutcome with
  | .error e => .error e
  | .ok _ =>
    match runOutcome with
    | .error e => .error e
    | .ok result => if jsTruthyNum result.lastID then .ok true else .ok false

/-- Row of the `steam_games` table: `id INTEGER PRIMARY KEY, app_id TEXT,
date TEXT`. -/
structure SteamGameRow where
  rowid : Nat
  app_id : String
  date : String
deriving DecidableEq, Repr

/-- Effect of the plain `INSERT INTO steam_games (app_id, date) VALUES
(?,?)` on the table: append one row under the next generated identity
(no deletion path exists, so the next rowid is the row count plus one);
existing rows are untouched, and `lastID` reports the new identity. -/
def steamGamesInsert (tbl : List SteamGameRow) (appId date : String) :
    List SteamGameRow × RunResult :=
  (tbl ++ [{ rowid := tbl.length + 1, app_id := appId, date := date }],
   { lastID := some ((tbl.length : Int) + 1) })

/-- Event visible to the scheduler: a cron tick, or a pass running to
completion. -/
inductive SchedEvent where
  | tick
  | passEnd
deriving DecidableEq, Repr

/-- Passes in flight after one event. `start` installs the cron callback
with no re-entry guard and the cron library fires on schedule without
awaiting the previous callback, so a tick always starts one more
`postGames` pass. -/
def schedStep (running : Nat) : SchedEvent → Nat
  | .tick => running + 1
  | .passEnd => running - 1

/-- Passes in flight after a sequence of events, starting from `running`
passes. The boot pass of `start` is awaited before the cron job is armed,
so an execution of the armed scheduler starts at zero. -/
def runningPasses (running : Nat) : List SchedEvent → Nat
  | [] => running
  | e :: es => runningPasses (schedStep running e) es

/-- Unreduced fraction of integers with a positive denominator: the exact
value of a JavaScript number during the price computation. Fractions are
kept unnormalised so that every operation is plain integer arithmetic. -/
structure QR where
  n : Int
  d : Int
deriving DecidableEq, Repr

/-- Fraction holding an integer. -/
def QR.ofInt (k : Int) : QR := ⟨k, 1⟩

/-- Bit length of a natural number below two to the 128, enough for every
significand and scale appearing in the price computation; the fuel makes
the recursion structural. -/
def bitLenAux : Nat → Nat → Nat
  | 0, _ => 0
  | f + 1, n => if n = 0 then 0 else bitLenAux f (n / 2) + 1

/-- Bit length entry point. -/
def bitLen (n : Nat) : Nat := bitLenAux 128 n

/-- Floor of a fraction. -/
def QR.floor (a : QR) : Int := a.n.fdiv a.d

/-- Nearest integer to a fraction, ties to even: the rounding of IEEE-754
binary64. -/
def QR.roundHalfEven (a : QR) : Int :=
  let f := a.floor
  let r2 := 2 * (a.n - f * a.d)
  if r2 < a.d then f else if a.d < r2 then f + 1 else if f % 2 = 0 then f else f + 1

/-- Test whether two to the `e` is at most the positive fraction `a`. -/
def twoPowLe (e : Int) (a : QR) : Bool :=
  if 0 ≤ e then decide ((2 ^ e.toNat : Int) * a.d ≤ a.n)
  else decide (a.d ≤ (2 ^ (-e).toNat : Int) * a.n)

/-- Binary exponent of a positive fraction: the unique `e` with two to the
`e` at most the value, which is below two to the `e` plus one. -/
def QR.floorLog2 (a : QR) : Int :=
  let e0 : Int := (bitLen a.n.toNat : Int) - (bitLen a.d.toNat : Int)
  if twoPowLe e0 a then e0 else e0 - 1

/-- Rounding of a positive fraction to 53 significant bits. -/
def toDoublePos (a : QR) : QR :=
  let e := a.floorLog2
  let s : Int := 52 - e
  if 0 ≤ s then
    let m := QR.roundHalfEven ⟨a.n * 2 ^ s.toNat, a.d⟩
    ⟨m, 2 ^ s.toNat⟩
  else
    let m := QR.roundHalfEven ⟨a.n, a.d * 2 ^ (-s).toNat⟩
    ⟨m * 2 ^ (-s).toNat, 1⟩

/-- Value of the IEEE-754 binary64 number nearest to a fraction (round to
nearest, ties to even), for values in the normal range: the result of a
JavaScript arithmetic operation with this exact value. -/
def toDouble (a : QR) : QR :=
  if a.n = 0 then ⟨0, 1⟩
  else if a.n < 0 then
    let r := toDoublePos ⟨-a.n, a.d⟩
    ⟨-r.n, r.d⟩
  else toDoublePos a

/-- JavaScript division of two integers. -/
def jsDiv (a b : Int) : QR := toDouble ⟨a, b⟩

/-- JavaScript multiplication of two numbers. -/
def jsMul (a b : QR) : QR := toDouble ⟨a.n * b.n, a.d * b.d⟩

/-- JavaScript subtraction of two numbers. -/
def jsSub (a b : QR) : QR := toDouble ⟨a.n * b.d - b.n * a.d, a.d * b.d⟩

/-- JavaScript `Number.prototype.toFixed(2)` on a nonnegative number: the
integer closest to a hundred times the value, the larger one at a tie,
printed with two decimals. -/
def toFixed2 (a : QR) : String :=
  let n : Int := (200 * a.n + a.d).fdiv (2 * a.d)
  let r := n % 100
  toString (n / 100) ++ "." ++ (if r < 10 then "0" else "") ++ toString r

/-- Currency symbol map of `getPrice`: `currencies[currencyStr] ??
currencyStr`. -/
def currencySymbol (c : String) : String :=
  if c = "EUR" then "€"
  else if c = "USD" then "$"
  else if c = "GBP" then "£"
  else if c = "KRW" then "₩"
  else c

/-- Embedding of `SteamBot.getPrice` (`SteamBot.ts` lines 277 to 298). The
two `toFixed(2)` expressions are evaluated in emulated binary64 arithmetic;
all other steps are exact. Note the literal space between the price and the
discount clause in the final template. -/
def getPrice (meta : IGameMeta) : String :=
  let isFree := meta.is_free
  let fullPrice : Int :=
    if isFree then 0 else
      match meta.price_overview with
      | some po => po.final
      | none => -1
  let currencyStr : String :=
    if isFree then "" else
      match meta.price_overview with
      | some po => po.currency
      | none => ""
  let currency : String := currencySymbol currencyStr
  let discount : Int :=
    if isFree then 0 else
      match meta.price_overview with
      | some po => po.discount_percent
      | none => 0
  let discountPrice : String :=
    if 0 < discount then
      ", discounted at -" ++ toString discount ++ "% to " ++ currency ++
        toFixed2 (jsMul (jsDiv fullPrice 100) (jsSub (QR.ofInt 1) (jsDiv discount 100)))
    else ""
  if isFree then "Free"
  else if fullPrice < 0 then "No price"
  else currency ++ toFixed2 (jsDiv fullPrice 100) ++ " " ++ discountPrice

/-- Free item: the first input of C8. -/
def metaFree : IGameMeta :=
  { type := some "game"
    name := "Free Game"
    steam_appid := 10
    is_free := true
    price_overview := none
    categories := some []
    screenshots := none
    movies := none
    release_date := { coming_soon := false, date := "2024-01-01" } }

/-- Item priced 1999 cents in USD with no discount: the second input of
C8. -/
def metaUsd1999 : IGameMeta :=
  { type := some "game"
    name := "Paid Game"
    steam_appid := 11
    is_free := false
    price_overview := some { currency := "USD", final := 1999, discount_percent := 0 }
    categories := some []
    screenshots := none
    movies := none
    release_date := { coming_soon := false, date := "2024-01-01" } }

/-- Item priced 1999 cents in USD at fifty percent off: the third input of
C8. -/
def metaUsd1999Half : IGameMeta :=
  { type := some "game"
    name := "Discounted Game"
    steam_appid := 12
    is_free := false
    price_overview := some { currency := "USD", final := 1999, discount_percent := 50 }
    categories := some []
    screenshots := none
    movies := none
    release_date := { coming_soon := false, date := "2024-01-01" } }

/-- Item without price data: the fourth input of C8. -/
def metaNoPrice : IGameMeta :=
  { type := some "game"
    name := "Unpriced Game"
    steam_appid := 13
    is_free := false
    price_overview := none
    categories := some []
    screenshots := none
    movies := none
    release_date := { coming_soon := false, date := "2024-01-01" } }

/-- Send outcomes with every send succeeding and a truthy message id. -/
def sendsAllOk : SendOutcomes :=
  { primary := Except.ok { id := some "1" }
    screenshotsMsg := Except.ok ()
    trailersMsg := Except.ok () }

/-- Send outcomes where the primary send succeeds with a truthy id and the
screenshots follow-up rejects. -/
def sendsShotFail : SendOutcomes :=
  { primary := Except.ok { id := some "1" }
    screenshotsMsg := Except.error ()
    trailersMsg := Except.ok () }

/-- Item with one screenshot and no movie, in thread mode the source of one
attachment follow-up. -/
def metaOneShot : IGameMeta :=
  { type := some "game"
    name := "One Screenshot"
    steam_appid := 21
    is_free := false
    price_overview := none
    categories := some []
    screenshots := some [{ path_full := "https://example.test/s0.jpg" }]
    movies := none
    release_date := { coming_soon := false, date := "2024-01-01" } }

/-- Item whose screenshots field is present but empty: the input of C10. -/
def metaEmptyShots : IGameMeta :=
  { type := some "game"
    name := "Empty Screenshots"
    steam_appid := 22
    is_free := false
    price_overview := none
    categories := some []
    screenshots := some []
    movies := none
    release_date := { coming_soon := false, date := "2024-01-01" } }

/-- Per-item outcome oracle of the C1 example: the send for app id 2
succeeds and every other send fails. -/
def postOracleEx (m : IGameMeta) : Except JsError Bool :=
  Except.ok (m.steam_appid == 2)

/-- Ledger oracle of the C1 example: every insert succeeds. -/
def regOracleEx (_ : Nat) : Except DbError Bool :=
  Except.ok true

/-- Positive filter length states exactly that some member satisfies the
predicate. -/
theorem filter_length_pos_iff {α : Type} (p : α → Bool) (l : List α) :
    (0 < (l.filter p).length) ↔ ∃ x ∈ l, p x = true := by
  rw [List.length_pos]
  constructor
  · intro h
    rcases List.exists_mem_of_ne_nil _ h with ⟨x, hx⟩
    exact ⟨x, (List.mem_filter.mp hx).1, (List.mem_filter.mp hx).2⟩
  · rintro ⟨x, hx, hpx⟩ hnil
    exact (List.filter_eq_nil_iff.mp hnil) x hx hpx

/-- Boolean test of `isCoop` and `isMulti` states exactly that the category
code list meets the fixed id set. -/
theorem intersects_iff (ids : List Int) (cats : List IGameMetaEntry) :
    (decide (0 < (cats.filter fun c => ids.contains c.id).length) = true) ↔
      ∃ c ∈ cats, c.id ∈ ids := by
  rw [decide_eq_true_iff, filter_length_pos_iff]
  simp

/-- C2: with the type tag and the category list present, classification
follows the fixed precedence Demo, Coop, Multiplayer, Solo, each signal
read exactly as the code reads it: Demo iff the lower-cased type tag equals
"demo", otherwise Coop iff the codes meet {9, 38}, otherwise Multiplayer iff
the codes meet {1, 36, 49}, otherwise Solo. -/
theorem classify_precedence (meta : IGameMeta) (t : String)
    (cats : List IGameMetaEntry) (cat : Category)
    (ht : meta.type = some t) (hc : meta.categories = some cats)
    (hcl : classify meta = Except.ok cat) :
    (cat = Category.demo ↔ jsToLowerCase t = "demo") ∧
    (cat = Category.coop ↔
      jsToLowerCase t ≠ "demo" ∧ (∃ c ∈ cats, c.id ∈ coopIds)) ∧
    (cat = Category.multi ↔
      jsToLowerCase t ≠ "demo" ∧ (¬ ∃ c ∈ cats, c.id ∈ coopIds) ∧
        (∃ c ∈ cats, c.id ∈ multiIds)) ∧
    (cat = Category.solo ↔
      jsToLowerCase t ≠ "demo" ∧ (¬ ∃ c ∈ cats, c.id ∈ coopIds) ∧
        (¬ ∃ c ∈ cats, c.id ∈ multiIds)) := by
  simp only [classify, isDemo, isCoop, isMulti, ht, hc] at hcl
  by_cases hd : jsToLowerCase t = "demo"
  · simp only [hd, beq_self_eq_true, if_true, Except.ok.injEq] at hcl
    subst hcl
    simp [hd]
  · have hdb : (jsToLowerCase t == "demo") = false := by
      simpa using hd
    by_cases hco : ∃ c ∈ cats, c.id ∈ coopIds
    · have hcob := (intersects_iff coopIds cats).mpr hco
      simp only [hdb, hcob, if_false, if_true, Except.ok.injEq] at hcl
      subst hcl
      simp [hd, hco]
    · have hcob : (decide (0 < (cats.filter fun c => coopIds.contains c.id).length)) = false := by
        rcases Bool.eq_false_or_eq_true
          (decide (0 < (cats.filter fun c => coopIds.contains c.id).length)) with h | h
        · exact absurd ((intersects_iff coopIds cats).mp h) hco
        · exact h
      by_cases hmu : ∃ c ∈ cats, c.id ∈ multiIds
      · have hmub := (intersects_iff multiIds cats).mpr hmu
        simp only [hdb, hcob, hmub, if_false, if_true, Except.ok.injEq] at hcl
        subst hcl
        simp [hd, hco, hmu]
      · have hmub : (decide (0 < (cats.filter fun c => multiIds.contains c.id).length)) = false := by
          rcases Bool.eq_false_or_eq_true
            (decide (0 < (cats.filter fun c => multiIds.contains c.id).length)) with h | h
          · exact absurd ((intersects_iff multiIds cats).mp h) hmu
          · exact h
        simp only [hdb, hcob, hmub, if_false, Except.ok.injEq] at hcl
        subst hcl
        simp [hd, hco, hmu]

/-- C2 witness: on an item typed "demo" whose codes include the Coop code 9,
classification is Demo, and the characterisation of `classify_precedence`
holds at that input. -/
theorem classify_precedence_witness :
    (Category.demo = Category.demo ↔ jsToLowerCase "demo" = "demo") ∧
    (Category.demo = Category.coop ↔
      jsToLowerCase "demo" ≠ "demo" ∧
        (∃ c ∈ [({ id := 9, description := "Co-op" } : IGameMetaEntry)], c.id ∈ coopIds)) ∧
    (Category.demo = Category.multi ↔
      jsToLowerCase "demo" ≠ "demo" ∧
        (¬ ∃ c ∈ [({ id := 9, description := "Co-op" } : IGameMetaEntry)], c.id ∈ coopIds) ∧
        (∃ c ∈ [({ id := 9, description := "Co-op" } : IGameMetaEntry)], c.id ∈ multiIds)) ∧
    (Category.demo = Category.solo ↔
      jsToLowerCase "demo" ≠ "demo" ∧
        (¬ ∃ c ∈ [({ id := 9, description := "Co-op" } : IGameMetaEntry)], c.id ∈ coopIds) ∧
        (¬ ∃ c ∈ [({ id := 9, description := "Co-op" } : IGameMetaEntry)], c.id ∈ multiIds)) :=
  classify_precedence demoWithCoopCode "demo" [{ id := 9, description := "Co-op" }]
    Category.demo rfl rfl (by decide)

/-- C9: the classifier is not total. On an item whose category list is
absent, `isCoop` dereferences `undefined` and classification throws instead
of returning a category, even though the type tag alone already places the
item in Demo. -/
theorem classify_throws_on_absent_categories :
    classify metaWithoutCategories = Except.error JsError.typeError ∧
    isDemo metaWithoutCategories = Except.ok true := by
  decide

/-- C6: the release filter keeps an item exactly when `coming_soon` is false
and its release date parses to a time at or before the current instant; in
particular an item with `coming_soon` true is dropped regardless of its
date, and an item whose date does not parse is dropped. -/
theorem filterReleased_iff (pd : String → Option Int) (now : Int) (meta : IGameMeta) :
    filterReleased pd now meta = true ↔
      (meta.release_date.coming_soon = false ∧
        ∃ t, pd meta.release_date.date = some t ∧ t ≤ now) := by
  unfold filterReleased
  rcases h : pd meta.release_date.date with _ | t
  · simp [h]
  · cases hc : meta.release_date.coming_soon <;> simp [h, hc]

/-- Code-point comparison flips under swapping its arguments. -/
theorem charListCmp_gt_iff : ∀ as bs : List Char,
    charListCmp as bs = Ordering.gt ↔ charListCmp bs as = Ordering.lt
  | [], [] => by simp [charListCmp]
  | [], _ :: _ => by simp [charListCmp]
  | _ :: _, [] => by simp [charListCmp]
  | a :: as, b :: bs => by
    simp only [charListCmp]
    by_cases h1 : a.toNat < b.toNat
    · simp [h1, Nat.lt_asymm h1]
    · by_cases h2 : b.toNat < a.toNat
      · simp [h1, h2]
      · simp [h1, h2, charListCmp_gt_iff as bs]

/-- Code-point comparison is transitive in its nonstrict form. -/
theorem charListCmp_le_trans : ∀ as bs cs : List Char,
    charListCmp as bs ≠ Ordering.gt → charListCmp bs cs ≠ Ordering.gt →
      charListCmp as cs ≠ Ordering.gt
  | [], bs, cs => by cases cs <;> simp [charListCmp]
  | _ :: _, [], _ => by simp [charListCmp]
  | a :: as, b :: bs, [] => by
    intro _ h2
    exact absurd rfl h2
  | a :: as, b :: bs, c :: cs => by
    intro h1 h2
    simp only [charListCmp] at h1 h2 ⊢
    by_cases hab : a.toNat < b.toNat <;> by_cases hba : b.toNat < a.toNat <;>
      by_cases hbc : b.toNat < c.toNat <;> by_cases hcb : c.toNat < b.toNat <;>
        simp [hab, hba, hbc, hcb] at h1 h2 <;>
          first
            | omega
            | (have hac : a.toNat < c.toNat := by omega
               simp [hac])
            | (have hac : ¬ a.toNat < c.toNat := by omega
               have hca : ¬ c.toNat < a.toNat := by omega
               simp [hac, hca]
               exact charListCmp_le_trans as bs cs h1 h2)

/-- String comparison never reports both orders strict: at least one
direction is nonpositive. -/
theorem localeCompare_total (a b : String) :
    localeCompare a b ≤ 0 ∨ localeCompare b a ≤ 0 := by
  unfold localeCompare
  rcases h : charListCmp a.data b.data with _ | _ | _
  · left
    decide
  · left
    decide
  · right
    rw [(charListCmp_gt_iff a.data b.data).mp h]
    decide

/-- Nonpositive string comparison is transitive. -/
theorem localeCompare_le_trans (a b c : String)
    (h1 : localeCompare a b ≤ 0) (h2 : localeCompare b c ≤ 0) :
    localeCompare a c ≤ 0 := by
  unfold localeCompare at h1 h2 ⊢
  have g1 : charListCmp a.data b.data ≠ Ordering.gt := by
    intro h
    rw [h] at h1
    exact absurd h1 (by decide)
  have g2 : charListCmp b.data c.data ≠ Ordering.gt := by
    intro h
    rw [h] at h2
    exact absurd h2 (by decide)
  have g3 := charListCmp_le_trans a.data b.data c.data g1 g2
  rcases h : charListCmp a.data c.data with _ | _ | _
  · decide
  · decide
  · exact absurd h g3

/-- Keep-before test stated through the parsed times: nonpositive comparator
value means earlier date, or equal dates and nonpositive reverse name
comparison. -/
theorem jsSortLE_iff (pd : String → Option Int) (a b : IGameMeta) (ta tb : Int)
    (ha : pd a.release_date.date = some ta) (hb : pd b.release_date.date = some tb) :
    jsSortLE pd a b = true ↔ (ta < tb ∨ (ta = tb ∧ localeCompare b.name a.name ≤ 0)) := by
  simp only [jsSortLE, compareReleaseDatesOrNames, ha, hb]
  by_cases h : ta - tb = 0
  · have hcond : ¬(ta - tb ≠ 0) := by omega
    simp only [h, if_neg hcond, decide_eq_true_eq]
    constructor
    · intro hle
      exact Or.inr ⟨by omega, hle⟩
    · rintro (hlt | ⟨_, hle⟩)
      · omega
      · exact hle
  · simp only [if_pos h, decide_eq_true_eq]
    constructor
    · intro hle
      exact Or.inl (by omega)
    · rintro (hlt | ⟨heq, _⟩)
      · omega
      · omega

/-- Keep-before relation entails the announcement order on parseable
items. -/
theorem jsSortLE_announce (pd : String → Option Int) (a b : IGameMeta) (ta tb : Int)
    (ha : pd a.release_date.date = some ta) (hb : pd b.release_date.date = some tb)
    (h : jsSortLE pd a b = true) : announceLE pd a b :=
  ⟨ta, tb, ha, hb, (jsSortLE_iff pd a b ta tb ha hb).mp h⟩

/-- Announcement order is transitive. -/
theorem announceLE_trans (pd : String → Option Int) (a b c : IGameMeta)
    (h1 : announceLE pd a b) (h2 : announceLE pd b c) : announceLE pd a c := by
  rcases h1 with ⟨ta, tb, ha, hb, hab⟩
  rcases h2 with ⟨tb2, tc, hb2, hc, hbc⟩
  rw [hb] at hb2
  cases hb2
  refine ⟨ta, tc, ha, hc, ?_⟩
  rcases hab with hlt | ⟨heq, hname⟩
  · rcases hbc with hlt2 | ⟨heq2, _⟩
    · exact Or.inl (lt_trans hlt hlt2)
    · exact Or.inl (heq2 ▸ hlt)
  · rcases hbc with hlt2 | ⟨heq2, hname2⟩
    · exact Or.inl (heq ▸ hlt2)
    · exact Or.inr ⟨heq.trans heq2, localeCompare_le_trans _ _ _ hname2 hname⟩

/-- Parseable items compare in at least one direction. -/
theorem jsSortLE_total (pd : String → Option Int) (a b : IGameMeta) (ta tb : Int)
    (ha : pd a.release_date.date = some ta) (hb : pd b.release_date.date = some tb) :
    jsSortLE pd a b = true ∨ jsSortLE pd b a = true := by
  rcases lt_trichotomy ta tb with h | h | h
  · exact Or.inl ((jsSortLE_iff pd a b ta tb ha hb).mpr (Or.inl h))
  · rcases localeCompare_total b.name a.name with hn | hn
    · exact Or.inl ((jsSortLE_iff pd a b ta tb ha hb).mpr (Or.inr ⟨h, hn⟩))
    · exact Or.inr ((jsSortLE_iff pd b a tb ta hb ha).mpr (Or.inr ⟨h.symm, hn⟩))
  · exact Or.inr ((jsSortLE_iff pd b a tb ta hb ha).mpr (Or.inl h))

/-- Membership in an insertion step. -/
theorem mem_insertCmp (le : IGameMeta → IGameMeta → Bool) (x : IGameMeta) :
    ∀ l z, z ∈ insertCmp le x l → z = x ∨ z ∈ l
  | [], z, h => by
    simp only [insertCmp, List.mem_singleton] at h
    exact Or.inl h
  | y :: ys, z, h => by
    simp only [insertCmp] at h
    split at h
    · rcases List.mem_cons.mp h with h1 | h1
      · exact Or.inl h1
      · exact Or.inr h1
    · rcases List.mem_cons.mp h with h1 | h1
      · exact Or.inr (h1 ▸ List.mem_cons_self y ys)
      · rcases mem_insertCmp le x ys z h1 with h2 | h2
        · exact Or.inl h2
        · exact Or.inr (List.mem_cons_of_mem y h2)

/-- Membership in the sort output. -/
theorem mem_sortCmp (le : IGameMeta → IGameMeta → Bool) :
    ∀ l z, z ∈ sortCmp le l → z ∈ l
  | [], z, h => by
    simp only [sortCmp] at h
    exact h
  | x :: xs, z, h => by
    rcases mem_insertCmp le x (sortCmp le xs) z h with h1 | h1
    · exact h1 ▸ List.mem_cons_self x xs
    · exact List.mem_cons_of_mem x (mem_sortCmp le xs z h1)

/-- Inserting a parseable item into a sorted list of parseable items keeps
the list sorted for the announcement order. -/
theorem pairwise_insertCmp (pd : String → Option Int) (x : IGameMeta)
    (hx : (pd x.release_date.date).isSome = true) :
    ∀ l, (∀ y ∈ l, (pd y.release_date.date).isSome = true) →
      l.Pairwise (announceLE pd) →
        (insertCmp (jsSortLE pd) x l).Pairwise (announceLE pd)
  | [], _, _ => by simp [insertCmp]
  | y :: ys, hl, hp => by
    rcases Option.isSome_iff_exists.mp hx with ⟨tx, htx⟩
    rcases Option.isSome_iff_exists.mp (hl y (List.mem_cons_self y ys)) with ⟨ty, hty⟩
    rcases List.pairwise_cons.mp hp with ⟨hyall, hys⟩
    simp only [insertCmp]
    split
    · rename_i hle
      refine List.pairwise_cons.mpr ⟨?_, hp⟩
      intro z hz
      rcases List.mem_cons.mp hz with h1 | h1
      · exact h1 ▸ jsSortLE_announce pd x y tx ty htx hty hle
      · exact announceLE_trans pd x y z (jsSortLE_announce pd x y tx ty htx hty hle) (hyall z h1)
    · rename_i hnle
      have hyx : jsSortLE pd y x = true := by
        rcases jsSortLE_total pd x y tx ty htx hty with h1 | h1
        · exact absurd h1 hnle
        · exact h1
      refine List.pairwise_cons.mpr ⟨?_, ?_⟩
      · intro z hz
        rcases mem_insertCmp (jsSortLE pd) x ys z hz with h1 | h1
        · exact h1 ▸ jsSortLE_announce pd y x ty tx hty htx hyx
        · exact hyall z h1
      · exact pairwise_insertCmp pd x hx ys
          (fun m hm => hl m (List.mem_cons_of_mem y hm)) hys

/-- Sorting a list of parseable items yields a list sorted for the
announcement order. -/
theorem pairwise_sortCmp (pd : String → Option Int) :
    ∀ l, (∀ y ∈ l, (pd y.release_date.date).isSome = true) →
      (sortCmp (jsSortLE pd) l).Pairwise (announceLE pd)
  | [], _ => by simp [sortCmp]
  | x :: xs, hl =>
    pairwise_insertCmp pd x (hl x (List.mem_cons_self x xs)) (sortCmp (jsSortLE pd) xs)
      (fun m hm => hl m (List.mem_cons_of_mem x (mem_sortCmp (jsSortLE pd) xs m hm)))
      (pairwise_sortCmp pd xs (fun m hm => hl m (List.mem_cons_of_mem x hm)))

/-- C7: on a filtered list, whose dates all parse, the announcement order
produced by the sort is ascending by release time with ties broken by
descending name; the sort is a function, so equal inputs give equal
outputs; and the two items of 2024-01-01 named Zeta and Alpha order as
Zeta then Alpha. -/
theorem sortMetas_spec (pd : String → Option Int) (ms : List IGameMeta)
    (h : ∀ m ∈ ms, (pd m.release_date.date).isSome = true) :
    (sortMetas pd ms).Pairwise (announceLE pd) ∧
    (∀ ms2, ms = ms2 → sortMetas pd ms = sortMetas pd ms2) ∧
    sortMetas pdExample [metaAlpha, metaZeta] = [metaZeta, metaAlpha] := by
  refine ⟨pairwise_sortCmp pd ms h, fun ms2 he => he ▸ rfl, ?_⟩
  decide

/-- C7 witness: the ordering theorem applied to the concrete two-item list
dated 2024-01-01. -/
theorem sortMetas_spec_witness :
    (sortMetas pdExample [metaAlpha, metaZeta]).Pairwise (announceLE pdExample) :=
  (sortMetas_spec pdExample [metaAlpha, metaZeta] (by decide)).1

/-- Send phase returns true exactly when the primary send resolved and, if
its response id was truthy, every follow-up send it went on to attempt also
resolved. -/
theorem postGameSend_true_iff (sends : SendOutcomes) (hf ht : Bool) :
    postGameSend sends hf ht = true ↔
      ∃ resp, sends.primary = Except.ok resp ∧
        (jsTruthyId resp.id = true →
          ((hf = true → sends.screenshotsMsg.isOk = true) ∧
           (ht = true → sends.trailersMsg.isOk = true))) := by
  rcases sends with ⟨prim, shot, trail⟩
  rcases prim with e | resp
  · simp [postGameSend]
  · simp only [postGameSend]
    cases hj : jsTruthyId resp.id
    · simp [hj]
    · cases hf <;> cases ht <;> rcases shot with _ | _ <;> rcases trail with _ | _ <;>
        simp [hj, Except.isOk, Except.toBool]

/-- C5 (amended): when `postGame` returns a boolean, that boolean is true
exactly when the primary send resolved and, when its response id was
truthy, each follow-up send the mode and media made it attempt resolved as
well; a rejected follow-up therefore downgrades the result to false. -/
theorem postGame_true_iff (postThreads : Bool) (sends : SendOutcomes)
    (meta : IGameMeta) (b : Bool)
    (h : postGame postThreads sends meta = Except.ok b) :
    b = true ↔
      ∃ resp, sends.primary = Except.ok resp ∧
        (jsTruthyId resp.id = true →
          (((postThreads && !(threadFiles meta).isEmpty) = true →
              sends.screenshotsMsg.isOk = true) ∧
           ((postThreads && !(threadTrailerLinks meta == "")) = true →
              sends.trailersMsg.isOk = true))) := by
  cases postThreads
  · simp only [postGame, Bool.false_eq_true, if_false] at h
    rcases hi : inlineScreenshotUrl meta with e | u
    · rw [hi] at h
      simp at h
    · rw [hi] at h
      simp only [Except.ok.injEq] at h
      subst h
      simpa using postGameSend_true_iff sends false false
  · simp only [postGame, if_true, Except.ok.injEq] at h
    subst h
    simpa using
      postGameSend_true_iff sends (!(threadFiles meta).isEmpty) (!(threadTrailerLinks meta == ""))

set_option maxRecDepth 40000 in
/-- C5 witness: in thread mode, with one screenshot, no movie and every
send resolving, `postGame` returns true, and the characterisation of
`postGame_true_iff` holds at that input. -/
theorem postGame_true_iff_witness :
    (postGame true sendsAllOk metaOneShot = Except.ok true) ∧
    (true = true ↔
      ∃ resp, sendsAllOk.primary = Except.ok resp ∧
        (jsTruthyId resp.id = true →
          (((true && !(threadFiles metaOneShot).isEmpty) = true →
              sendsAllOk.screenshotsMsg.isOk = true) ∧
           ((true && !(threadTrailerLinks metaOneShot == "")) = true →
              sendsAllOk.trailersMsg.isOk = true)))) :=
  ⟨by decide, postGame_true_iff true sendsAllOk metaOneShot true (by decide)⟩

set_option maxRecDepth 40000 in
/-- C5 counterexample: the primary send succeeds with a truthy message id,
the screenshots follow-up rejects, and `postGame` returns false, not true:
a follow-up failure does downgrade the result. -/
theorem postGame_downgraded_by_followup :
    sendsShotFail.primary = Except.ok { id := some "1" } ∧
    postGame true sendsShotFail metaOneShot = Except.ok false ∧
    ¬ postGame true sendsShotFail metaOneShot = Except.ok true := by
  decide

/-- C10: in inline-links mode an item whose screenshots field is present
but empty makes `postGame` throw a `TypeError` during rendering, before the
send try block, instead of returning a boolean; inside `postGames` the
exception escapes the per-item loop, so the whole pass rejects. -/
theorem postGame_throws_on_empty_screenshots (sends : SendOutcomes)
    (reg : Nat → Except DbError Bool) (rest : List IGameMeta) (meta : IGameMeta)
    (hshots : meta.screenshots = some [])
    (hcl : classify meta = Except.ok Category.solo) :
    postGame false sends meta = Except.error JsError.typeError ∧
    postGames (postGame false sends) reg (meta :: rest) =
      Except.error (PassError.js JsError.typeError) := by
  have h1 : inlineScreenshotUrl meta = Except.error JsError.typeError := by
    unfold inlineScreenshotUrl
    rw [hshots]
  have h2 : postGame false sends meta = Except.error JsError.typeError := by
    unfold postGame
    rw [if_neg (by simp), h1]
  refine ⟨h2, ?_⟩
  rw [postGames, hcl, h2]

set_option maxRecDepth 40000 in
/-- C10 witness: the concrete item with a present empty screenshot list
throws and aborts the pass. -/
theorem postGame_throws_on_empty_screenshots_witness :
    postGame false sendsAllOk metaEmptyShots = Except.error JsError.typeError ∧
    postGames (postGame false sendsAllOk) regOracleEx [metaEmptyShots] =
      Except.error (PassError.js JsError.typeError) :=
  postGame_throws_on_empty_screenshots sendsAllOk regOracleEx [] metaEmptyShots
    (by decide) (by decide)

/-- C1: when a pass runs to completion, every item of the list was
attempted, and `registerGameAsPosted` was called exactly for the items
whose `postGame` returned true: an id is recorded in the ledger if and only
if its send succeeded in that pass, and an item whose send returned false
is skipped without stopping the items after it. -/
theorem postGames_ledger (post : IGameMeta → Except JsError Bool)
    (reg : Nat → Except DbError Bool) (metas : List IGameMeta)
    (att recd : List Nat)
    (h : postGames post reg metas = Except.ok (att, recd)) :
    att = metas.map (fun m => m.steam_appid) ∧
    recd = (metas.filter (fun m => post m == Except.ok true)).map
      (fun m => m.steam_appid) := by
  induction metas generalizing att recd with
  | nil =>
    rw [postGames] at h
    cases h
    exact ⟨rfl, rfl⟩
  | cons m rest ih =>
    rcases hcl : classify m with e | cat
    · simp [postGames, hcl] at h
    · rcases hp : post m with e | wasPosted
      · simp [postGames, hcl, hp] at h
      · rcases hreg : reg m.steam_appid with e2 | rb
        · cases wasPosted
          · rcases hrec : postGames post reg rest with e3 | pr
            · simp [postGames, hcl, hp, hrec] at h
            · rcases pr with ⟨a, r⟩
              simp only [postGames, hcl, hp, hrec, Bool.false_eq_true, if_false,
                Except.ok.injEq, Prod.mk.injEq] at h
              obtain ⟨ha, hr⟩ := h
              subst ha
              subst hr
              obtain ⟨ih1, ih2⟩ := ih a r hrec
              have hpt : (post m == Except.ok true) = false := by
                rw [hp]
                simp
              exact ⟨by simp [ih1],
                by simp [List.filter_cons, hpt, ih2]⟩
          · simp [postGames, hcl, hp, hreg] at h
        · cases wasPosted
          · rcases hrec : postGames post reg rest with e3 | pr
            · simp [postGames, hcl, hp, hrec] at h
            · rcases pr with ⟨a, r⟩
              simp only [postGames, hcl, hp, hrec, Bool.false_eq_true, if_false,
                Except.ok.injEq, Prod.mk.injEq] at h
              obtain ⟨ha, hr⟩ := h
              subst ha
              subst hr
              obtain ⟨ih1, ih2⟩ := ih a r hrec
              have hpt : (post m == Except.ok true) = false := by
                rw [hp]
                simp
              exact ⟨by simp [ih1],
                by simp [List.filter_cons, hpt, ih2]⟩
          · rcases hrec : postGames post reg rest with e3 | pr
            · simp [postGames, hcl, hp, hreg, hrec] at h
            · rcases pr with ⟨a, r⟩
              simp only [postGames, hcl, hp, hreg, hrec, if_true,
                Except.ok.injEq, Prod.mk.injEq] at h
              obtain ⟨ha, hr⟩ := h
              subst ha
              subst hr
              obtain ⟨ih1, ih2⟩ := ih a r hrec
              have hpt : (post m == Except.ok true) = true := by
                rw [hp]
                simp
              exact ⟨by simp [ih1],
                by simp [List.filter_cons, hpt, ih2]⟩

/-- C1 witness: the pass where the send for Alpha (id 1) fails and the send
for the later Zeta (id 2) succeeds attempts both and records exactly
Zeta. -/
theorem postGames_ledger_witness :
    (postGames postOracleEx regOracleEx [metaAlpha, metaZeta] =
      Except.ok ([1, 2], [2])) ∧
    ([1, 2] = [metaAlpha, metaZeta].map (fun m => m.steam_appid) ∧
     [2] = ([metaAlpha, metaZeta].filter
        (fun m => postOracleEx m == Except.ok true)).map (fun m => m.steam_appid)) :=
  ⟨by decide,
   postGames_ledger postOracleEx regOracleEx [metaAlpha, metaZeta] [1, 2] [2] (by decide)⟩

/-- C4 counterexample: a storage error during the insert is propagated to
the caller of `registerGameAsPosted` as a rejection; the method does not
return false on it. -/
theorem registerGameAsPosted_propagates :
    registerGameAsPosted (Except.ok ()) (Except.error DbError.ioError) =
      Except.error DbError.ioError ∧
    ¬ registerGameAsPosted (Except.ok ()) (Except.error DbError.ioError) =
      Except.ok false := by
  decide

/-- C4 (amended): `registerGameAsPosted` returns true exactly when the
acknowledged insert carries a truthy generated row identity, and the plain
INSERT appends one row, never touching existing records; but a storage
error, from opening the database or from the insert, propagates to the
caller instead of producing false. -/
theorem registerGameAsPosted_contract (run_res : RunResult) (e : DbError)
    (runOutcome : Except DbError RunResult) (tbl : List SteamGameRow)
    (appId date : String) :
    (registerGameAsPosted (Except.ok ()) (Except.ok run_res) =
      Except.ok (jsTruthyNum run_res.lastID)) ∧
    (registerGameAsPosted (Except.ok ()) (Except.error e) = Except.error e) ∧
    (registerGameAsPosted (Except.error e) runOutcome = Except.error e) ∧
    ((steamGamesInsert tbl appId date).1 =
      tbl ++ [{ rowid := tbl.length + 1, app_id := appId, date := date }]) ∧
    (jsTruthyNum (steamGamesInsert tbl appId date).2.lastID = true) := by
  refine ⟨?_, rfl, rfl, rfl, ?_⟩
  · cases h : jsTruthyNum run_res.lastID <;> simp [registerGameAsPosted, h]
  · simp only [steamGamesInsert, jsTruthyNum]
    simp only [Bool.not_eq_true']
    simp only [beq_eq_false_iff_ne, ne_eq]
    omega

/-- C3: the scheduler of `start` has no overlap guard; two cron ticks with
no pass completion between them leave two passes in flight, so a tick that
fires while a pass is still running starts a second, overlapping pass
rather than being a no-op. -/
theorem runningPasses_overlap :
    runningPasses 0 [SchedEvent.tick, SchedEvent.tick] = 2 ∧
    ¬ runningPasses 0 [SchedEvent.tick, SchedEvent.tick] ≤ 1 := by
  decide

set_option maxRecDepth 100000 in
/-- C8 counterexample: with final 1999, currency USD and no discount the
formatted price is the string with a trailing space, coming from the
template that always places a space before the (here empty) discount
clause, and not the bare string the claim states. -/
theorem getPrice_trailing_space :
    getPrice metaUsd1999 = "$19.99 " ∧
    ¬ getPrice metaUsd1999 = "$19.99" := by
  decide

set_option maxRecDepth 100000 in
/-- C8 (amended): a free item formats as Free; final 1999 in USD with no
discount formats as the price followed by the template's trailing space;
with a fifty percent discount the clause names the emulated-binary64
discounted price of 9.99 dollars; and absent price data formats as No
price. -/
theorem getPrice_formats :
    getPrice metaFree = "Free" ∧
    getPrice metaUsd1999 = "$19.99 " ∧
    getPrice metaUsd1999Half = "$19.99 , discounted at -50% to $9.99" ∧
    getPrice metaNoPrice = "No price" := by
  decide
